import Mathlib

/-!
Shallow embedding of src/server.js: a minimal media-sharing backend with a
posts table, a comments table and a file upload directory.  Each HTTP
handler becomes a pure function from the server state (the two relational
tables, the id sequences, the database clock and the upload directory) to a
response together with the successor state.  SQL statements are translated
directly: the UPDATE ... RETURNING increments become a map over the table
plus the list of returned values, the SELECT ... ORDER BY queries become a
filter followed by a mergeSort with the corresponding comparator.
-/

namespace Server

/-- Row of the posts table: INSERT INTO posts (url, type, likes, comments).
The id column is a serial primary key; likes and comments are integer
columns, written by the code only as 0 and via likes = likes + 1 /
comments = comments + 1. -/
structure Post where
  id : Nat
  url : String
  type : String
  likes : Int
  comments : Int
  deriving Repr, DecidableEq

/-- Row of the comments table: INSERT INTO comments (post_id, text); the id
column is a serial key, created_at a server-assigned timestamp used as the
sort key of GET /api/posts/:id/comments. -/
structure Comment where
  id : Nat
  post_id : Nat
  text : String
  created_at : Nat
  deriving Repr, DecidableEq

/-- Multipart file as multer hands it to the handler: req.file.filename is
the name assigned on disk, req.file.mimetype the declared content type. -/
structure FileInfo where
  filename : String
  mimetype : String
  deriving Repr, DecidableEq

/-- Whole server state: the two tables, the serial sequences backing their
id columns, the database clock stamping comments.created_at, and the
uploads directory (the Asset Sink) as the list of stored file URLs. -/
structure State where
  posts : List Post
  comments : List Comment
  nextPostId : Nat
  nextCommentId : Nat
  clock : Nat
  files : List String
  deriving Repr, DecidableEq

/-- Fresh database: empty tables, serial sequences at 1, empty uploads
directory. -/
def initState : State :=
  { posts := [], comments := [], nextPostId := 1, nextCommentId := 1,
    clock := 0, files := [] }

/-- JSON bodies the handlers produce via res.json. -/
inductive Body where
  | uploadOk (message : String) (url : String)
  | err (error : String)
  | likesVal (likes : Int)
  | commentsVal (comments : Int)
  | commentRows (rows : List Comment)
  | postRows (rows : List Post)
  deriving Repr, DecidableEq

/-- HTTP response: status code plus JSON body. -/
structure Response where
  status : Nat
  body : Body
  deriving Repr, DecidableEq

/-- UPDATE posts SET likes = likes + 1 WHERE id = $1 RETURNING likes:
every row whose id matches gets its likes column incremented, and the new
likes values of the matched rows are returned. -/
def updateLikes (posts : List Post) (pid : Nat) : List Post × List Int :=
  (posts.map fun p => if p.id = pid then { p with likes := p.likes + 1 } else p,
   (posts.filter fun p => p.id == pid).map fun p => p.likes + 1)

/-- UPDATE posts SET comments = comments + 1 WHERE id = $1 RETURNING
comments: every row whose id matches gets its comments column incremented,
and the new comments values of the matched rows are returned. -/
def updateComments (posts : List Post) (pid : Nat) : List Post × List Int :=
  (posts.map fun p => if p.id = pid then { p with comments := p.comments + 1 } else p,
   (posts.filter fun p => p.id == pid).map fun p => p.comments + 1)

/-- Boolean test that pre is a prefix of s: the semantics of the
startsWith call applied to the declared content type, phrased on the
character list of the string so that it evaluates by kernel reduction. -/
def mimeStartsWith (s pre : String) : Bool :=
  pre.data.isPrefixOf s.data

/-- POST /api/upload.  multer stores the file before the handler body runs,
so on a present file the upload directory always receives the file.  The
handler then derives the URL and the type (image when the declared content
type begins with image, video otherwise) and runs the INSERT; dbFail models
the INSERT throwing, which the catch turns into a generic 500. -/
def handleUpload (st : State) (file : Option FileInfo) (dbFail : Bool) :
    Response × State :=
  match file with
  | none => ({ status := 400, body := .err "No file uploaded" }, st)
  | some f =>
    let fileUrl := "/uploads/" ++ f.filename
    let fileType := if mimeStartsWith f.mimetype "image" then "image"
                    else "video"
    let st1 := { st with files := st.files ++ [fileUrl] }
    if dbFail then
      ({ status := 500, body := .err "Failed to upload file" }, st1)
    else
      let post : Post :=
        { id := st1.nextPostId, url := fileUrl, type := fileType,
          likes := 0, comments := 0 }
      ({ status := 200, body := .uploadOk "File uploaded successfully" fileUrl },
       { st1 with posts := st1.posts ++ [post], nextPostId := st1.nextPostId + 1 })

/-- GET /api/posts: SELECT * FROM posts ORDER BY id DESC. -/
def handleListPosts (st : State) : Response × State :=
  ({ status := 200,
     body := .postRows (st.posts.mergeSort fun a b => b.id ≤ a.id) }, st)

/-- POST /api/posts/:id/like: a single UPDATE ... RETURNING likes; zero
returned rows means the post does not exist and yields a 404. -/
def handleLike (st : State) (pid : Nat) : Response × State :=
  let r := updateLikes st.posts pid
  let st1 := { st with posts := r.1 }
  match r.2 with
  | [] => ({ status := 404, body := .err "Post not found" }, st1)
  | n :: _ => ({ status := 200, body := .likesVal n }, st1)

/-- POST /api/posts/:id/comment.  The body text is absent (undefined) or a
string; the guard if (!text) rejects exactly the absent and the empty
string.  The comment row is inserted first, then the counter UPDATE runs;
zero returned rows means the post does not exist and yields a 404 while
the inserted row stays in the comments table. -/
def handleComment (st : State) (pid : Nat) (text : Option String) :
    Response × State :=
  match text with
  | none => ({ status := 400, body := .err "Comment text is required" }, st)
  | some t =>
    if t = "" then
      ({ status := 400, body := .err "Comment text is required" }, st)
    else
      let c : Comment :=
        { id := st.nextCommentId, post_id := pid, text := t,
          created_at := st.clock }
      let st1 := { st with comments := st.comments ++ [c],
                           nextCommentId := st.nextCommentId + 1,
                           clock := st.clock + 1 }
      let r := updateComments st1.posts pid
      let st2 := { st1 with posts := r.1 }
      match r.2 with
      | [] => ({ status := 404, body := .err "Post not found" }, st2)
      | n :: _ => ({ status := 200, body := .commentsVal n }, st2)

/-- Result set of SELECT * FROM comments WHERE post_id = $1 ORDER BY
created_at DESC: the rows referencing the post, sorted by created_at
descending. -/
def listingOf (st : State) (pid : Nat) : List Comment :=
  (st.comments.filter fun c => c.post_id == pid).mergeSort
    fun a b => b.created_at ≤ a.created_at

/-- GET /api/posts/:id/comments: SELECT * FROM comments WHERE post_id = $1
ORDER BY created_at DESC; no existence check on the post. -/
def handleListComments (st : State) (pid : Nat) : Response × State :=
  ({ status := 200, body := .commentRows (listingOf st pid) }, st)

/-- One client request, as dispatched by the express routes.  dbFail on
upload models the INSERT failing after the file was stored. -/
inductive Request where
  | upload (file : Option FileInfo) (dbFail : Bool)
  | listPosts
  | like (pid : Nat)
  | comment (pid : Nat) (text : Option String)
  | listComments (pid : Nat)
  deriving Repr, DecidableEq

/-- Dispatch one request against the server state. -/
def step (st : State) : Request → Response × State
  | .upload f d => handleUpload st f d
  | .listPosts => handleListPosts st
  | .like pid => handleLike st pid
  | .comment pid t => handleComment st pid t
  | .listComments pid => handleListComments st pid

/-- States the server can be in: the fresh database followed by any
sequence of requests. -/
inductive Reachable : State → Prop
  | init : Reachable initState
  | next (r : Request) {st : State} : Reachable st → Reachable (step st r).2

/-- Number of rows of the comments table whose post_id references the given
post id. -/
def commentCount (st : State) (pid : Nat) : Nat :=
  (st.comments.filter fun c => c.post_id == pid).length

/-- Row the comment handler inserts via INSERT INTO comments (post_id,
text) VALUES ($1, $2): the next serial id, the given post id and text, and
the current database time as created_at. -/
def insertedComment (st : State) (pid : Nat) (t : String) : Comment :=
  { id := st.nextCommentId, post_id := pid, text := t, created_at := st.clock }

/-- Inductive invariant of the reachable states: every post id is below the
posts serial sequence, post ids are pairwise distinct, every post's
comments counter is a non-negative integer bounded by the number of
comment rows referencing it, and every comment's created_at lies below the
database clock. -/
def Inv (st : State) : Prop :=
  (∀ p ∈ st.posts, p.id < st.nextPostId) ∧
  (st.posts.map Post.id).Nodup ∧
  (∀ p ∈ st.posts, 0 ≤ p.comments ∧
    p.comments ≤ (commentCount st p.id : Int)) ∧
  (∀ c ∈ st.comments, c.created_at < st.clock)

/-! Helper lemmas shared by the claim theorems. -/

lemma cmpDesc_trans (a b c : Comment)
    (hab : decide (b.created_at ≤ a.created_at) = true)
    (hbc : decide (c.created_at ≤ b.created_at) = true) :
    decide (c.created_at ≤ a.created_at) = true := by
  simp only [decide_eq_true_eq] at *
  omega

lemma cmpDesc_total (a b : Comment) :
    (decide (b.created_at ≤ a.created_at) ||
      decide (a.created_at ≤ b.created_at)) = true := by
  simp [Nat.le_total]

lemma filter_posts_eq_nil {posts : List Post} {pid : Nat}
    (h : ∀ p ∈ posts, p.id ≠ pid) :
    (posts.filter fun p => p.id == pid) = [] := by
  apply List.filter_eq_nil_iff.mpr
  intro p hp
  simpa using h p hp

lemma map_if_id_eq_self {posts : List Post} {pid : Nat} (g : Post → Post)
    (h : ∀ p ∈ posts, p.id ≠ pid) :
    (posts.map fun p => if p.id = pid then g p else p) = posts := by
  have hcong : ∀ p ∈ posts, (if p.id = pid then g p else p) = p := by
    intro p hp
    exact if_neg (h p hp)
  rw [List.map_congr_left hcong]
  simp

lemma filter_posts_eq_single {posts : List Post} {pid : Nat} {p : Post}
    (hnd : (posts.map Post.id).Nodup) (hp : p ∈ posts) (hid : p.id = pid) :
    (posts.filter fun q => q.id == pid) = [p] := by
  induction posts with
  | nil => cases hp
  | cons a l ih =>
    simp only [List.map_cons, List.nodup_cons] at hnd
    rcases List.mem_cons.mp hp with rfl | hpl
    · rw [List.filter_cons_of_pos (by simpa using hid)]
      have hl : (l.filter fun q => q.id == pid) = [] := by
        apply filter_posts_eq_nil
        intro q hq he
        exact hnd.1 (by rw [hid, ← he]; exact List.mem_map_of_mem Post.id hq)
      rw [hl]
    · have hane : (a.id == pid) = false := by
        apply beq_eq_false_iff_ne.mpr
        intro he
        exact hnd.1 (by rw [he, ← hid]; exact List.mem_map_of_mem Post.id hpl)
      rw [List.filter_cons_of_neg (by simp [hane]), ih hnd.2 hpl]

lemma head_of_mergeSort_append_max {α : Type} {le : α → α → Bool}
    (htrans : ∀ a b c, le a b = true → le b c = true → le a c = true)
    (htot : ∀ a b, (le a b || le b a) = true)
    (l : List α) (m : α) (hl : ∀ x ∈ l, le x m = false) :
    ((l ++ [m]).mergeSort le).head? = some m := by
  have hperm := List.mergeSort_perm (l ++ [m]) le
  have hc : m ∈ (l ++ [m]).mergeSort le := hperm.mem_iff.mpr (by simp)
  have hsorted := List.sorted_mergeSort htrans htot (l ++ [m])
  cases hs : (l ++ [m]).mergeSort le with
  | nil => rw [hs] at hc; cases hc
  | cons h t =>
    rw [hs] at hc hsorted
    rcases List.mem_cons.mp hc with rfl | hct
    · rfl
    · have hmemh : h ∈ l ++ [m] := by
        apply hperm.mem_iff.mp
        rw [hs]
        exact List.mem_cons_self h t
      have hle : le h m = true := (List.pairwise_cons.mp hsorted).1 m hct
      rcases List.mem_append.mp hmemh with hhl | hhm
      · rw [hl h hhl] at hle; cases hle
      · rw [List.mem_singleton.mp hhm]; rfl

lemma handleLike_missing (st : State) (pid : Nat)
    (h : ∀ p ∈ st.posts, p.id ≠ pid) :
    handleLike st pid = ({ status := 404, body := .err "Post not found" }, st) := by
  unfold handleLike updateLikes
  rw [filter_posts_eq_nil h, map_if_id_eq_self _ h]
  rfl

lemma handleLike_existing (st : State) (pid : Nat) (p : Post)
    (hnd : (st.posts.map Post.id).Nodup) (hp : p ∈ st.posts) (hid : p.id = pid) :
    handleLike st pid =
      ({ status := 200, body := .likesVal (p.likes + 1) },
       { st with posts := st.posts.map fun q =>
           if q.id = pid then { q with likes := q.likes + 1 } else q }) := by
  unfold handleLike updateLikes
  rw [filter_posts_eq_single hnd hp hid]
  rfl

lemma handleComment_missing (st : State) (pid : Nat) (t : String) (ht : t ≠ "")
    (h : ∀ p ∈ st.posts, p.id ≠ pid) :
    handleComment st pid (some t) =
      ({ status := 404, body := .err "Post not found" },
       { st with
           comments := st.comments ++
             [{ id := st.nextCommentId, post_id := pid, text := t,
                created_at := st.clock }],
           nextCommentId := st.nextCommentId + 1,
           clock := st.clock + 1 }) := by
  unfold handleComment updateComments
  dsimp only
  rw [if_neg ht, filter_posts_eq_nil h, map_if_id_eq_self _ h]
  rfl

lemma handleComment_existing (st : State) (pid : Nat) (t : String) (ht : t ≠ "")
    (p : Post) (hnd : (st.posts.map Post.id).Nodup) (hp : p ∈ st.posts)
    (hid : p.id = pid) :
    handleComment st pid (some t) =
      ({ status := 200, body := .commentsVal (p.comments + 1) },
       { st with
           comments := st.comments ++
             [{ id := st.nextCommentId, post_id := pid, text := t,
                created_at := st.clock }],
           nextCommentId := st.nextCommentId + 1,
           clock := st.clock + 1,
           posts := st.posts.map fun q =>
             if q.id = pid then { q with comments := q.comments + 1 } else q }) := by
  unfold handleComment updateComments
  dsimp only
  rw [if_neg ht, filter_posts_eq_single hnd hp hid]
  rfl

/-! Claim theorems. -/

/-- Claim C1: a successful upload with a file present inserts a Post row
whose url is the stored file URL, whose type is image when the declared
content type begins with image and video otherwise, and whose likes and
comments counters are both 0; the response carries the success message and
the URL. -/
theorem upload_creates_post (st : State) (f : FileInfo) :
    (handleUpload st (some f) false).1 =
      { status := 200,
        body := .uploadOk "File uploaded successfully"
          ("/uploads/" ++ f.filename) } ∧
    (handleUpload st (some f) false).2.posts =
      st.posts ++
        [{ id := st.nextPostId, url := "/uploads/" ++ f.filename,
           type := if mimeStartsWith f.mimetype "image" then "image"
                   else "video",
           likes := 0, comments := 0 }] :=
  ⟨rfl, rfl⟩

/-- Claim C2: a comment with non-empty text on a post id absent from the
posts table makes the counter UPDATE affect no rows, so the handler answers
404 post not found, yet the comment row referencing the nonexistent post id
was already inserted and stays in the comments table, while the posts table
is unchanged. -/
theorem orphan_comment_on_missing_post (st : State) (pid : Nat) (t : String)
    (ht : t ≠ "") (h : ∀ p ∈ st.posts, p.id ≠ pid) :
    (handleComment st pid (some t)).1 =
      { status := 404, body := .err "Post not found" } ∧
    (handleComment st pid (some t)).2.comments =
      st.comments ++
        [{ id := st.nextCommentId, post_id := pid, text := t,
           created_at := st.clock }] ∧
    (handleComment st pid (some t)).2.posts = st.posts := by
  rw [handleComment_missing st pid t ht h]
  exact ⟨rfl, rfl, rfl⟩

/-- Witness for C2 at a concrete input: a comment on post id 1 of the fresh
database. -/
theorem orphan_comment_on_missing_post_witness :
    ("hi" ≠ "") ∧ (∀ p ∈ initState.posts, p.id ≠ 1) ∧
    ((handleComment initState 1 (some "hi")).1 =
        { status := 404, body := .err "Post not found" } ∧
      (handleComment initState 1 (some "hi")).2.comments =
        initState.comments ++
          [{ id := initState.nextCommentId, post_id := 1, text := "hi",
             created_at := initState.clock }] ∧
      (handleComment initState 1 (some "hi")).2.posts = initState.posts) :=
  ⟨by decide, by decide,
   orphan_comment_on_missing_post initState 1 "hi" (by decide) (by decide)⟩

/-- Claim C6: a like on a post id absent from the posts table answers 404
post not found and leaves the whole state unchanged; in particular no Post
row is created. -/
theorem like_missing_post_unchanged (st : State) (pid : Nat)
    (h : ∀ p ∈ st.posts, p.id ≠ pid) :
    (handleLike st pid).1 = { status := 404, body := .err "Post not found" } ∧
    (handleLike st pid).2 = st := by
  rw [handleLike_missing st pid h]
  exact ⟨rfl, rfl⟩

/-- Witness for C6 at a concrete input: a like on post id 5 of the fresh
database. -/
theorem like_missing_post_unchanged_witness :
    (∀ p ∈ initState.posts, p.id ≠ 5) ∧
    ((handleLike initState 5).1 =
        { status := 404, body := .err "Post not found" } ∧
      (handleLike initState 5).2 = initState) :=
  ⟨by decide, like_missing_post_unchanged initState 5 (by decide)⟩

/-- Claim C7: a comment whose text is absent or the empty string answers
400 with the comment-text-required error and changes nothing: no comment
row is inserted and no counter moves. -/
theorem comment_empty_text_rejected (st : State) (pid : Nat)
    (text : Option String) (h : text = none ∨ text = some "") :
    (handleComment st pid text).1 =
      { status := 400, body := .err "Comment text is required" } ∧
    (handleComment st pid text).2 = st := by
  rcases h with rfl | rfl
  · exact ⟨rfl, rfl⟩
  · exact ⟨rfl, rfl⟩

/-- Witness for C7 at a concrete input: an empty-string comment on the
fresh database. -/
theorem comment_empty_text_rejected_witness :
    ((some "" : Option String) = none ∨ (some "" : Option String) = some "") ∧
    ((handleComment initState 1 (some "")).1 =
        { status := 400, body := .err "Comment text is required" } ∧
      (handleComment initState 1 (some "")).2 = initState) :=
  ⟨Or.inr rfl, comment_empty_text_rejected initState 1 (some "") (Or.inr rfl)⟩

/-- Claim C8: when the file is stored but the INSERT fails, the handler
answers a generic 500, the stored file stays in the upload directory, and
the posts table is unchanged, so no Post row exists for the file. -/
theorem upload_insert_failure_keeps_file (st : State) (f : FileInfo) :
    (handleUpload st (some f) true).1 =
      { status := 500, body := .err "Failed to upload file" } ∧
    (handleUpload st (some f) true).2.files =
      st.files ++ ["/uploads/" ++ f.filename] ∧
    (handleUpload st (some f) true).2.posts = st.posts :=
  ⟨rfl, rfl, rfl⟩

/-- Claim C10: the guard on the comment text is a falsiness check, so every
non-empty string is accepted, whitespace-only strings included: the 400
rejection is not produced and a comment row carrying exactly that text is
inserted. -/
theorem comment_nonempty_text_inserted (st : State) (pid : Nat) (t : String)
    (ht : t ≠ "") :
    (handleComment st pid (some t)).1 ≠
      { status := 400, body := .err "Comment text is required" } ∧
    (handleComment st pid (some t)).2.comments =
      st.comments ++
        [{ id := st.nextCommentId, post_id := pid, text := t,
           created_at := st.clock }] := by
  unfold handleComment updateComments
  dsimp only
  rw [if_neg ht]
  constructor
  · cases hm : (st.posts.filter fun p => p.id == pid).map
        fun p => p.comments + 1 with
    | nil => simp [hm]
    | cons n l => simp [hm]
  · cases hm : (st.posts.filter fun p => p.id == pid).map
        fun p => p.comments + 1 with
    | nil => simp [hm]
    | cons n l => simp [hm]

/-- Witness for C10 at a concrete input: a whitespace-only comment text on
the fresh database is accepted and inserted. -/
theorem comment_nonempty_text_inserted_witness :
    (" " ≠ "") ∧
    ((handleComment initState 1 (some " ")).1 ≠
        { status := 400, body := .err "Comment text is required" } ∧
      (handleComment initState 1 (some " ")).2.comments =
        initState.comments ++
          [{ id := initState.nextCommentId, post_id := 1, text := " ",
             created_at := initState.clock }]) :=
  ⟨by decide, comment_nonempty_text_inserted initState 1 " " (by decide)⟩

/-- Claim C5: a like on an existing post increments exactly that post's
likes counter by 1 through the single UPDATE ... RETURNING statement, the
response carries the new likes value, and nothing else changes: posts with
a different id are untouched, table size, the comments table and the
upload directory stay the same. -/
theorem like_increments_exactly_one (st : State) (pid : Nat) (p : Post)
    (hnd : (st.posts.map Post.id).Nodup) (hp : p ∈ st.posts)
    (hid : p.id = pid) :
    (handleLike st pid).1 =
      { status := 200, body := .likesVal (p.likes + 1) } ∧
    (∃ p' ∈ (handleLike st pid).2.posts,
        p'.id = p.id ∧ p'.likes = p.likes + 1 ∧ p'.url = p.url ∧
        p'.type = p.type ∧ p'.comments = p.comments) ∧
    (∀ q ∈ st.posts, q.id ≠ pid → q ∈ (handleLike st pid).2.posts) ∧
    (handleLike st pid).2.posts.length = st.posts.length ∧
    (handleLike st pid).2.comments = st.comments ∧
    (handleLike st pid).2.files = st.files := by
  rw [handleLike_existing st pid p hnd hp hid]
  refine ⟨rfl, ?_, ?_, by simp, rfl, rfl⟩
  · refine ⟨{ p with likes := p.likes + 1 }, ?_, rfl, rfl, rfl, rfl, rfl⟩
    have he : ({ p with likes := p.likes + 1 } : Post) =
        (fun q => if q.id = pid then { q with likes := q.likes + 1 } else q) p := by
      simp [hid]
    rw [he]
    exact List.mem_map_of_mem _ hp
  · intro q hq hqne
    have he : q =
        (fun r => if r.id = pid then { r with likes := r.likes + 1 } else r) q := by
      simp [hqne]
    rw [he]
    exact List.mem_map_of_mem _ hq

/-- Witness for C5 at a concrete input: liking the single post of a
one-post database. -/
theorem like_increments_exactly_one_witness :
    (((initState.posts ++
        [({ id := 1, url := "/uploads/a.png", type := "image",
            likes := 0, comments := 0 } : Post)]).map Post.id).Nodup ∧
      ({ id := 1, url := "/uploads/a.png", type := "image",
         likes := 0, comments := 0 } : Post) ∈
        initState.posts ++
          [{ id := 1, url := "/uploads/a.png", type := "image",
             likes := 0, comments := 0 }] ∧
      (1 : Nat) = 1) ∧
    (handleLike
        { initState with
            posts := initState.posts ++
              [{ id := 1, url := "/uploads/a.png", type := "image",
                 likes := 0, comments := 0 }],
            nextPostId := 2 } 1).1 =
      { status := 200, body := .likesVal 1 } :=
  ⟨⟨by decide, by decide, rfl⟩,
   (like_increments_exactly_one
      { initState with
          posts := initState.posts ++
            [{ id := 1, url := "/uploads/a.png", type := "image",
               likes := 0, comments := 0 }],
          nextPostId := 2 } 1
      { id := 1, url := "/uploads/a.png", type := "image",
        likes := 0, comments := 0 }
      (by decide) (by decide) rfl).1⟩

/-- Claim C4: a comment with non-empty text on an existing post answers 200
with the incremented comments value, the post's counter moves up by exactly
1, and the inserted comment appears in that post's comment listing as its
first (newest) element, the listing being ordered by created_at
descending. -/
theorem comment_success_increments_and_lists (st : State) (pid : Nat)
    (t : String) (ht : t ≠ "") (p : Post)
    (hnd : (st.posts.map Post.id).Nodup) (hp : p ∈ st.posts)
    (hid : p.id = pid)
    (hclk : ∀ c ∈ st.comments, c.created_at < st.clock) :
    (handleComment st pid (some t)).1 =
      { status := 200, body := .commentsVal (p.comments + 1) } ∧
    (∃ p' ∈ (handleComment st pid (some t)).2.posts,
        p'.id = p.id ∧ p'.comments = p.comments + 1) ∧
    insertedComment st pid t ∈
      listingOf (handleComment st pid (some t)).2 pid ∧
    (listingOf (handleComment st pid (some t)).2 pid).head? =
      some (insertedComment st pid t) ∧
    List.Pairwise (fun a b : Comment => b.created_at ≤ a.created_at)
      (listingOf (handleComment st pid (some t)).2 pid) := by
  rw [handleComment_existing st pid t ht p hnd hp hid]
  have hfil : (listingOf
      { st with
          comments := st.comments ++
            [{ id := st.nextCommentId, post_id := pid, text := t,
               created_at := st.clock }],
          nextCommentId := st.nextCommentId + 1,
          clock := st.clock + 1,
          posts := st.posts.map fun q =>
            if q.id = pid then { q with comments := q.comments + 1 } else q }
      pid) =
      ((st.comments.filter fun c => c.post_id == pid) ++
        [insertedComment st pid t]).mergeSort
          fun a b => decide (b.created_at ≤ a.created_at) := by
    unfold listingOf insertedComment
    rw [List.filter_append]
    congr 1
    simp
  have hmax : ∀ x ∈ (st.comments.filter fun c => c.post_id == pid),
      decide ((insertedComment st pid t).created_at ≤ x.created_at) = false := by
    intro x hx
    have hxc : x.created_at < st.clock := hclk x (List.mem_of_mem_filter hx)
    simp only [insertedComment, decide_eq_false_iff_not]
    omega
  refine ⟨rfl, ?_, ?_, ?_, ?_⟩
  · refine ⟨{ p with comments := p.comments + 1 }, ?_, rfl, rfl⟩
    have he : ({ p with comments := p.comments + 1 } : Post) =
        (fun q => if q.id = pid then { q with comments := q.comments + 1 } else q) p := by
      simp [hid]
    rw [he]
    exact List.mem_map_of_mem _ hp
  · rw [hfil]
    exact (List.mergeSort_perm _ _).mem_iff.mpr (by simp)
  · rw [hfil]
    exact head_of_mergeSort_append_max cmpDesc_trans cmpDesc_total _ _ hmax
  · rw [hfil]
    have hs := List.sorted_mergeSort cmpDesc_trans cmpDesc_total
      ((st.comments.filter fun c => c.post_id == pid) ++ [insertedComment st pid t])
    exact hs.imp fun hab => of_decide_eq_true hab

/-- Witness for C4 at a concrete input: commenting on the single post of a
one-post database that already holds one older comment. -/
theorem comment_success_increments_and_lists_witness :
    (("second" ≠ "") ∧
      (((initState.posts ++
          [({ id := 1, url := "/uploads/a.png", type := "image",
              likes := 0, comments := 1 } : Post)]).map Post.id).Nodup) ∧
      (1 : Nat) = 1 ∧
      (∀ c ∈ [({ id := 1, post_id := 1, text := "first",
                 created_at := 0 } : Comment)], c.created_at < 1)) ∧
    (handleComment
        { posts := [{ id := 1, url := "/uploads/a.png", type := "image",
                      likes := 0, comments := 1 }],
          comments := [{ id := 1, post_id := 1, text := "first",
                         created_at := 0 }],
          nextPostId := 2, nextCommentId := 2, clock := 1,
          files := ["/uploads/a.png"] } 1 (some "second")).1 =
      { status := 200, body := .commentsVal 2 } :=
  ⟨⟨by decide, by decide, rfl, by decide⟩,
   (comment_success_increments_and_lists
      { posts := [{ id := 1, url := "/uploads/a.png", type := "image",
                    likes := 0, comments := 1 }],
        comments := [{ id := 1, post_id := 1, text := "first",
                       created_at := 0 }],
        nextPostId := 2, nextCommentId := 2, clock := 1,
        files := ["/uploads/a.png"] } 1 "second" (by decide)
      { id := 1, url := "/uploads/a.png", type := "image",
        likes := 0, comments := 1 }
      (by decide) (by decide) rfl (by decide)).1⟩

/-- Claim C9 (amended): listing comments always answers 200 and leaves the
state unchanged; the returned rows are exactly the comments table rows
whose post_id equals the given id, ordered by created_at descending; when
no comment row references the id — in particular for a nonexistent post id
onto which no comment was orphaned — the result is the empty list. -/
theorem listComments_rows_exact (st : State) (pid : Nat) :
    (handleListComments st pid).1.status = 200 ∧
    (handleListComments st pid).1.body = .commentRows (listingOf st pid) ∧
    (handleListComments st pid).2 = st ∧
    (listingOf st pid).Perm (st.comments.filter fun c => c.post_id == pid) ∧
    List.Pairwise (fun a b : Comment => b.created_at ≤ a.created_at)
      (listingOf st pid) ∧
    ((∀ c ∈ st.comments, c.post_id ≠ pid) → listingOf st pid = []) := by
  refine ⟨rfl, rfl, rfl, List.mergeSort_perm _ _, ?_, ?_⟩
  · have hs := List.sorted_mergeSort cmpDesc_trans cmpDesc_total
      (st.comments.filter fun c => c.post_id == pid)
    exact hs.imp fun hab => of_decide_eq_true hab
  · intro h
    have hf : (st.comments.filter fun c => c.post_id == pid) = [] := by
      apply List.filter_eq_nil_iff.mpr
      intro c hc
      simpa using h c hc
    unfold listingOf
    rw [hf, List.mergeSort_nil]

/-- Witness for C9 at a concrete input: listing the comments of post id 3
of the fresh database yields the empty list. -/
theorem listComments_rows_exact_witness :
    (∀ c ∈ initState.comments, c.post_id ≠ 3) ∧ listingOf initState 3 = [] :=
  ⟨by decide, (listComments_rows_exact initState 3).2.2.2.2.2 (by decide)⟩

/-! Invariant machinery for the reachable-state claim. -/

lemma eq_of_id_eq {posts : List Post} (hnd : (posts.map Post.id).Nodup)
    {p q : Post} (hp : p ∈ posts) (hq : q ∈ posts) (hid : p.id = q.id) :
    p = q :=
  List.inj_on_of_nodup_map hnd hp hq hid

lemma handleLike_snd (st : State) (pid : Nat) :
    (handleLike st pid).2 = { st with posts := (updateLikes st.posts pid).1 } := by
  unfold handleLike
  dsimp only
  split <;> rfl

lemma handleComment_some_snd (st : State) (pid : Nat) (t : String)
    (ht : t ≠ "") :
    (handleComment st pid (some t)).2 =
      { st with
          comments := st.comments ++ [insertedComment st pid t],
          nextCommentId := st.nextCommentId + 1,
          clock := st.clock + 1,
          posts := (updateComments st.posts pid).1 } := by
  unfold handleComment
  dsimp only
  rw [if_neg ht]
  split <;> rfl

lemma handleComment_emptyStr_eq (st : State) (pid : Nat) :
    handleComment st pid (some "") =
      ({ status := 400, body := .err "Comment text is required" }, st) := by
  unfold handleComment
  dsimp only
  rw [if_pos rfl]

lemma update_preserves_id (posts : List Post) (pid : Nat) (g : Post → Post)
    (hg : ∀ p, (g p).id = p.id) :
    ((posts.map fun p => if p.id = pid then g p else p).map Post.id) =
      posts.map Post.id := by
  rw [List.map_map]
  apply List.map_congr_left
  intro p hp
  by_cases hc : p.id = pid <;> simp [hc, hg]

lemma inv_init : Inv initState := by
  refine ⟨?_, ?_, ?_, ?_⟩ <;> simp [initState]

lemma handleUpload_ok_snd (st : State) (f : FileInfo) :
    (handleUpload st (some f) false).2 =
      { st with
          posts := st.posts ++
            [{ id := st.nextPostId, url := "/uploads/" ++ f.filename,
               type := if mimeStartsWith f.mimetype "image" then "image"
                  else "video",
               likes := 0, comments := 0 }],
          nextPostId := st.nextPostId + 1,
          files := st.files ++ ["/uploads/" ++ f.filename] } := rfl

lemma inv_upload (st : State) (f : Option FileInfo) (d : Bool) (h : Inv st) :
    Inv (handleUpload st f d).2 := by
  obtain ⟨h1, h2, h3, h4⟩ := h
  cases f with
  | none => exact ⟨h1, h2, h3, h4⟩
  | some f =>
    cases d with
    | true => exact ⟨h1, h2, h3, h4⟩
    | false =>
      rw [handleUpload_ok_snd]
      refine ⟨?_, ?_, ?_, h4⟩
      · intro p hp
        rcases List.mem_append.mp hp with hold | hnew
        · exact Nat.lt_succ_of_lt (h1 p hold)
        · rw [List.mem_singleton.mp hnew]
          exact Nat.lt_succ_self _
      · dsimp only
        rw [List.map_append]
        refine List.nodup_append.mpr ⟨h2, List.nodup_singleton _, ?_⟩
        intro x hx hx2
        rw [List.mem_singleton.mp hx2] at hx
        obtain ⟨p, hp, hpe⟩ := List.mem_map.mp hx
        exact absurd hpe (Nat.ne_of_lt (h1 p hp))
      · intro p hp
        rcases List.mem_append.mp hp with hold | hnew
        · exact h3 p hold
        · rw [List.mem_singleton.mp hnew]
          exact ⟨le_refl 0, Int.natCast_nonneg _⟩

lemma inv_like (st : State) (pid : Nat) (h : Inv st) :
    Inv (handleLike st pid).2 := by
  obtain ⟨h1, h2, h3, h4⟩ := h
  rw [handleLike_snd]
  refine ⟨?_, ?_, ?_, h4⟩
  · intro p hp
    obtain ⟨q, hq, rfl⟩ := List.mem_map.mp hp
    by_cases hc : q.id = pid
    · rw [if_pos hc]; exact h1 q hq
    · rw [if_neg hc]; exact h1 q hq
  · dsimp only
    show (((st.posts.map fun p =>
        if p.id = pid then { p with likes := p.likes + 1 } else p).map
          Post.id)).Nodup
    rw [update_preserves_id st.posts pid
      (fun q => { q with likes := q.likes + 1 }) (fun p => rfl)]
    exact h2
  · intro p hp
    obtain ⟨q, hq, rfl⟩ := List.mem_map.mp hp
    by_cases hc : q.id = pid
    · rw [if_pos hc]; exact h3 q hq
    · rw [if_neg hc]; exact h3 q hq

lemma inv_comment (st : State) (pid : Nat) (text : Option String)
    (h : Inv st) : Inv (handleComment st pid text).2 := by
  obtain ⟨h1, h2, h3, h4⟩ := h
  cases text with
  | none => exact ⟨h1, h2, h3, h4⟩
  | some t =>
    by_cases ht : t = ""
    · rw [ht, handleComment_emptyStr_eq]
      exact ⟨h1, h2, h3, h4⟩
    · rw [handleComment_some_snd st pid t ht]
      have hcount : ∀ q : Nat,
          commentCount
            { st with
                comments := st.comments ++ [insertedComment st pid t],
                nextCommentId := st.nextCommentId + 1,
                clock := st.clock + 1,
                posts := (updateComments st.posts pid).1 } q =
          commentCount st q + (if pid = q then 1 else 0) := by
        intro q
        unfold commentCount insertedComment
        dsimp only
        rw [List.filter_append, List.length_append]
        congr 1
        by_cases hq : pid = q
        · simp [hq]
        · simp [hq]
      refine ⟨?_, ?_, ?_, ?_⟩
      · intro p hp
        obtain ⟨q, hq, rfl⟩ := List.mem_map.mp hp
        by_cases hc : q.id = pid
        · rw [if_pos hc]; exact h1 q hq
        · rw [if_neg hc]; exact h1 q hq
      · dsimp only
        show (((st.posts.map fun p =>
            if p.id = pid then { p with comments := p.comments + 1 }
            else p).map Post.id)).Nodup
        rw [update_preserves_id st.posts pid
          (fun q => { q with comments := q.comments + 1 }) (fun p => rfl)]
        exact h2
      · intro p hp
        obtain ⟨q, hq, rfl⟩ := List.mem_map.mp hp
        obtain ⟨hb1, hb2⟩ := h3 q hq
        by_cases hc : q.id = pid
        · rw [if_pos hc]
          show 0 ≤ q.comments + 1 ∧ q.comments + 1 ≤
            (commentCount
              { st with
                  comments := st.comments ++ [insertedComment st pid t],
                  nextCommentId := st.nextCommentId + 1,
                  clock := st.clock + 1,
                  posts := (updateComments st.posts pid).1 } q.id : Int)
          rw [hcount q.id, if_pos hc.symm]
          push_cast
          omega
        · rw [if_neg hc]
          show 0 ≤ q.comments ∧ q.comments ≤
            (commentCount
              { st with
                  comments := st.comments ++ [insertedComment st pid t],
                  nextCommentId := st.nextCommentId + 1,
                  clock := st.clock + 1,
                  posts := (updateComments st.posts pid).1 } q.id : Int)
          rw [hcount q.id, if_neg fun he => hc he.symm]
          push_cast
          omega
      · intro c hc
        rcases List.mem_append.mp hc with hold | hnew
        · exact Nat.lt_succ_of_lt (h4 c hold)
        · rw [List.mem_singleton.mp hnew]
          exact Nat.lt_succ_self _

lemma reachable_inv {st : State} (h : Reachable st) : Inv st := by
  induction h with
  | init => exact inv_init
  | next r hst ih =>
    cases r with
    | upload f d => exact inv_upload _ f d ih
    | listPosts => exact ih
    | like pid => exact inv_like _ pid ih
    | comment pid text => exact inv_comment _ pid text ih
    | listComments pid => exact ih

/-- Claim C3 (amended): in every reachable state each Post row's comments
counter is a non-negative integer bounded above by the number of Comment
rows whose post_id references that post — equality can fail when a comment
was orphaned onto a post id before that post was created — and across
every operation the counter of a post that persists (same id before and
after) either stays unchanged or is incremented by exactly 1. -/
theorem comment_counter_bound_invariant (st : State) (h : Reachable st) :
    (∀ p ∈ st.posts, 0 ≤ p.comments ∧
      p.comments ≤ (commentCount st p.id : Int)) ∧
    (∀ r : Request, ∀ p' ∈ (step st r).2.posts, ∀ p ∈ st.posts,
      p'.id = p.id →
      p'.comments = p.comments ∨ p'.comments = p.comments + 1) := by
  obtain ⟨h1, h2, h3, h4⟩ := reachable_inv h
  refine ⟨h3, ?_⟩
  intro r p' hp' p hp hid
  cases r with
  | upload f d =>
    cases f with
    | none =>
      left
      rw [eq_of_id_eq h2 hp' hp hid]
    | some f =>
      cases d with
      | true =>
        left
        rw [eq_of_id_eq h2 hp' hp hid]
      | false =>
        simp only [step] at hp'
        rw [handleUpload_ok_snd] at hp'
        rcases List.mem_append.mp hp' with hold | hnew
        · left
          rw [eq_of_id_eq h2 hold hp hid]
        · exfalso
          have hpe : p.id = st.nextPostId := by
            rw [← hid, List.mem_singleton.mp hnew]
          exact absurd hpe (Nat.ne_of_lt (h1 p hp))
  | listPosts =>
    left
    rw [eq_of_id_eq h2 hp' hp hid]
  | like pid2 =>
    simp only [step] at hp'
    rw [handleLike_snd] at hp'
    obtain ⟨q, hq, rfl⟩ := List.mem_map.mp hp'
    have hqid : q.id = p.id := by
      by_cases hc : q.id = pid2
      · rw [if_pos hc] at hid; exact hid
      · rw [if_neg hc] at hid; exact hid
    have hqp : q = p := eq_of_id_eq h2 hq hp hqid
    subst hqp
    left
    by_cases hc : q.id = pid2
    · rw [if_pos hc]
    · rw [if_neg hc]
  | comment pid2 text =>
    cases text with
    | none =>
      left
      rw [eq_of_id_eq h2 hp' hp hid]
    | some t =>
      by_cases ht : t = ""
      · simp only [step] at hp'
        rw [ht, handleComment_emptyStr_eq] at hp'
        left
        rw [eq_of_id_eq h2 hp' hp hid]
      · simp only [step] at hp'
        rw [handleComment_some_snd st pid2 t ht] at hp'
        obtain ⟨q, hq, rfl⟩ := List.mem_map.mp hp'
        have hqid : q.id = p.id := by
          by_cases hc : q.id = pid2
          · rw [if_pos hc] at hid; exact hid
          · rw [if_neg hc] at hid; exact hid
        have hqp : q = p := eq_of_id_eq h2 hq hp hqid
        subst hqp
        by_cases hc : q.id = pid2
        · rw [if_pos hc]
          right
          rfl
        · rw [if_neg hc]
          left
          rfl
  | listComments pid2 =>
    left
    rw [eq_of_id_eq h2 hp' hp hid]

/-- Witness for C3 at a concrete reachable state: the database after one
successful upload. -/
theorem comment_counter_bound_invariant_witness :
    Reachable (step initState
      (Request.upload (some { filename := "a.png", mimetype := "image/png" })
        false)).2 ∧
    ((∀ p ∈ (step initState
        (Request.upload (some { filename := "a.png", mimetype := "image/png" })
          false)).2.posts,
        0 ≤ p.comments ∧
        p.comments ≤ (commentCount (step initState
          (Request.upload
            (some { filename := "a.png", mimetype := "image/png" })
            false)).2 p.id : Int)) ∧
      (∀ r : Request, ∀ p' ∈ (step (step initState
          (Request.upload
            (some { filename := "a.png", mimetype := "image/png" })
            false)).2 r).2.posts,
        ∀ p ∈ (step initState
          (Request.upload
            (some { filename := "a.png", mimetype := "image/png" })
            false)).2.posts,
        p'.id = p.id →
        p'.comments = p.comments ∨ p'.comments = p.comments + 1)) :=
  ⟨Reachable.next _ Reachable.init,
   comment_counter_bound_invariant _ (Reachable.next _ Reachable.init)⟩

/-- Counterexample to claim C3 as stated: commenting on the nonexistent
post id 1 leaves an orphaned comment row; the next upload then creates the
post with id 1 whose comments counter is 0 although one Comment row
references id 1, so the counter does not equal the number of referencing
rows in that reachable state. -/
theorem comment_counter_equality_fails :
    ¬ (∀ st : State, Reachable st → ∀ p ∈ st.posts,
        p.comments = (commentCount st p.id : Int)) := by
  intro hcl
  have h2 : Reachable (step (step initState (Request.comment 1 (some "hi"))).2
      (Request.upload (some { filename := "a.png", mimetype := "image/png" })
        false)).2 :=
    Reachable.next _ (Reachable.next _ Reachable.init)
  have hmem : (Post.mk 1 "/uploads/a.png" "image" 0 0) ∈
      (step (step initState (Request.comment 1 (some "hi"))).2
        (Request.upload
          (some { filename := "a.png", mimetype := "image/png" })
          false)).2.posts := by decide
  have hv := hcl _ h2 _ hmem
  revert hv
  decide

/-- Counterexample to claim C9 as stated: after a comment is orphaned onto
the nonexistent post id 1, listing the comments of id 1 returns that
comment, not the empty list, although no post with id 1 exists. -/
theorem listComments_missing_post_not_empty :
    ¬ (∀ st : State, Reachable st → ∀ pid : Nat,
        (∀ p ∈ st.posts, p.id ≠ pid) →
        (handleListComments st pid).1.body = Body.commentRows []) := by
  intro hcl
  have h1 : Reachable (step initState (Request.comment 1 (some "hi"))).2 :=
    Reachable.next _ Reachable.init
  have hv := hcl _ h1 1 (by decide)
  have he : (handleListComments
      (step initState (Request.comment 1 (some "hi"))).2 1).1.body =
      Body.commentRows
        [{ id := 1, post_id := 1, text := "hi", created_at := 0 }] := by
    show Body.commentRows (listingOf _ 1) = _
    unfold listingOf
    have hco : (step initState (Request.comment 1 (some "hi"))).2.comments =
        [{ id := 1, post_id := 1, text := "hi", created_at := 0 }] := by
      decide
    rw [hco]
    rw [show (List.filter (fun c => c.post_id == 1)
      [({ id := 1, post_id := 1, text := "hi", created_at := 0 } : Comment)]) =
      [{ id := 1, post_id := 1, text := "hi", created_at := 0 }] from by decide]
    rw [List.mergeSort_singleton]
  rw [he] at hv
  exact absurd hv (by decide)

end Server
